import Mathlib

/-!
Verification of the IP Range Switcher core (`ip_range_switcher.py`): the
profile store with its JSON persistence, the profile editor dialog, and the
adapter transition engine that drives `netsh`.

External commands are modelled through a `Runner`: the interface of §6 of the
design document, a total function from a command line to its exit status and
captured output.  The Python code launches each command with
`capture_output=True` and never inspects the result, which the model mirrors
by keeping the runner's answers in the trace and nowhere else.
-/

namespace IpSwitcher

/-- A single external command: the full argument vector handed to the OS. -/
abbrev Cmd := List String

/-- Outcome of one external command, as captured by `subprocess.run`. -/
structure CmdResult where
  exitCode : Int
  stdout : String
  stderr : String
deriving DecidableEq, Repr

/-- The command runner capability: runs one command, reports its outcome. -/
abbrev Runner := Cmd → CmdResult

/-- A Python `dict` with string keys and values, kept as an insertion-ordered
association list (keys are unique in any dict produced by Python). -/
abbrev Dict := List (String × String)

/-- `d.get(k)` / `d[k]`: the value stored under `k`, if any. -/
def dictGet (d : Dict) (k : String) : Option String :=
  (d.find? (fun kv => kv.1 == k)).map (fun kv => kv.2)

/-- The trace of one transition: every issued command paired with the
(ignored) result the runner produced for it. -/
abbrev Trace := List (Cmd × CmdResult)

/-- Model of `_run_netsh(args)`: prepend `netsh`, run the command, capture and
discard the result.  The pair records what was issued and what came back. -/
def run_netsh (run : Runner) (args : List String) : Cmd × CmdResult :=
  let c := "netsh" :: args
  (c, run c)

/-- Model of `apply_profile(adapter, p)`.  `p = none` is Python `None`; the
guard `if not adapter or not p` skips empty adapters, `None`, and empty
dicts.  `none` in the result is an uncaught `KeyError` from `p['...']`
(unreachable once the guard has passed and the five keys are present);
`some tr` is a normal return with issued-command trace `tr`. -/
def apply_profile (run : Runner) (adapter : String) (p : Option Dict) : Option Trace :=
  if adapter = "" ∨ p.getD [] = [] then some []
  else do
    let d := p.getD []
    let ip ← dictGet d "ip"
    let mask ← dictGet d "mask"
    let gw ← dictGet d "gw"
    let s1 := run_netsh run ["interface", "ip", "set", "address", "name=" ++ adapter, "static", ip, mask, gw, "1"]
    let dns1 ← dictGet d "dns1"
    let s2 := run_netsh run ["interface", "ip", "set", "dns", "name=" ++ adapter, "static", dns1, "primary"]
    if (dictGet d "dns2").getD "" ≠ "" then
      let s3 := run_netsh run ["interface", "ip", "add", "dns", "name=" ++ adapter, (dictGet d "dns2").getD "", "index=2"]
      pure [s1, s2, s3]
    else
      pure [s1, s2]

/-- Model of `set_dhcp(adapter)`: two unconditional commands, no guard. -/
def set_dhcp (run : Runner) (adapter : String) : Trace :=
  let s1 := run_netsh run ["interface", "ip", "set", "address", "name=" ++ adapter, "dhcp"]
  let s2 := run_netsh run ["interface", "ip", "set", "dns", "name=" ++ adapter, "dhcp"]
  [s1, s2]

/-- One stored static configuration: the record kept under a profile name. -/
structure ProfileRecord where
  ip : String
  mask : String
  gw : String
  dns1 : String
  dns2 : String
deriving DecidableEq, Repr

/-- The dict Python actually stores for a record, in dialog field order. -/
def ProfileRecord.toDict (r : ProfileRecord) : Dict :=
  [("ip", r.ip), ("mask", r.mask), ("gw", r.gw), ("dns1", r.dns1), ("dns2", r.dns2)]

/-- The set-address command of `apply_profile`, line 58. -/
def setAddressCmd (adapter ip mask gw : String) : Cmd :=
  ["netsh", "interface", "ip", "set", "address", "name=" ++ adapter, "static", ip, mask, gw, "1"]

/-- The set-dns-primary command of `apply_profile`, line 59. -/
def setDnsPrimaryCmd (adapter dns1 : String) : Cmd :=
  ["netsh", "interface", "ip", "set", "dns", "name=" ++ adapter, "static", dns1, "primary"]

/-- The conditional add-dns-secondary command of `apply_profile`, line 61. -/
def addDnsSecondaryCmd (adapter dns2 : String) : Cmd :=
  ["netsh", "interface", "ip", "add", "dns", "name=" ++ adapter, dns2, "index=2"]

/-- The set-address-to-dhcp command of `set_dhcp`, line 65. -/
def dhcpAddressCmd (adapter : String) : Cmd :=
  ["netsh", "interface", "ip", "set", "address", "name=" ++ adapter, "dhcp"]

/-- The set-dns-to-dhcp command of `set_dhcp`, line 66. -/
def dhcpDnsCmd (adapter : String) : Cmd :=
  ["netsh", "interface", "ip", "set", "dns", "name=" ++ adapter, "dhcp"]

/-- The commands `apply_profile` issues for a full record, in source order. -/
def applyCmds (adapter : String) (r : ProfileRecord) : List Cmd :=
  [setAddressCmd adapter r.ip r.mask r.gw, setDnsPrimaryCmd adapter r.dns1] ++
    (if r.dns2 ≠ "" then [addDnsSecondaryCmd adapter r.dns2] else [])

/-- The commands `set_dhcp` issues, in source order. -/
def dhcpCmds (adapter : String) : List Cmd :=
  [dhcpAddressCmd adapter, dhcpDnsCmd adapter]

/-- The characters Python's `str.strip()` removes: the Unicode whitespace
set (ASCII whitespace, the C1 separators, NEL, NBSP and the Unicode space
and separator characters). -/
def pyIsSpace (c : Char) : Bool :=
  c == ' ' || c == '\t' || c == '\n' || c == '\r' || c == '\x0b' || c == '\x0c' ||
  c == '\x1c' || c == '\x1d' || c == '\x1e' || c == '\x1f' || c == '\x85' || c == '\xa0' ||
  c == '\u1680' || ('\u2000' ≤ c && c ≤ '\u200a') || c == '\u2028' || c == '\u2029' ||
  c == '\u202f' || c == '\u205f' || c == '\u3000'

/-- Python's `str.strip()`: drop leading and trailing whitespace. -/
def pyStrip (s : String) : String :=
  String.mk (((s.toList.dropWhile pyIsSpace).reverse.dropWhile pyIsSpace).reverse)

/-- The texts of the five dialog entries at some moment. -/
structure DialogEntries where
  ip : String
  mask : String
  gw : String
  dns1 : String
  dns2 : String
deriving DecidableEq, Repr

namespace ProfileDialog

/-- Model of `ProfileDialog.body`: the initial text of the entry for `key` is
`self.defaults.get(key, '')`. -/
def body_init (defaults : Dict) (key : String) : String :=
  (dictGet defaults key).getD ""

/-- All five entries as `body` initialises them. -/
def initialEntries (defaults : Dict) : DialogEntries :=
  ⟨body_init defaults "ip", body_init defaults "mask", body_init defaults "gw",
    body_init defaults "dns1", body_init defaults "dns2"⟩

/-- Model of `ProfileDialog.validate`: IP, mask and gateway must be non-empty
after stripping. -/
def validate (e : DialogEntries) : Bool :=
  !(pyStrip e.ip == "" || pyStrip e.mask == "" || pyStrip e.gw == "")

/-- Model of `ProfileDialog.apply`: the resulting record strips every field. -/
def applyResult (e : DialogEntries) : ProfileRecord :=
  ⟨pyStrip e.ip, pyStrip e.mask, pyStrip e.gw, pyStrip e.dns1, pyStrip e.dns2⟩

/-- One closing interaction with the dialog: the operator presses OK
(`okPressed = true`) or cancels.  `simpledialog` only accepts the form when
`validate` passes; otherwise no result is produced. -/
def result (e : DialogEntries) (okPressed : Bool) : Option ProfileRecord :=
  if okPressed && validate e then some (applyResult e) else none

end ProfileDialog

/-- The in-memory profile store `self.profiles`: a Python dict from profile
name to record, as an insertion-ordered association list with unique keys. -/
abbrev Store := List (String × ProfileRecord)

namespace Store

/-- `self.profiles[name]` as a read (`None`-free model of the lookup). -/
def get? (s : Store) (n : String) : Option ProfileRecord :=
  (s.find? (fun kv => kv.1 == n)).map (fun kv => kv.2)

/-- `self.profiles[name] = r`: replace in place if present (keeping the
insertion position), otherwise append at the end. -/
def setItem (s : Store) (n : String) (r : ProfileRecord) : Store :=
  if (s.find? (fun kv => kv.1 == n)).isSome then
    s.map (fun kv => if kv.1 == n then (n, r) else kv)
  else
    s ++ [(n, r)]

/-- `self.profiles.pop(name, None)`: remove the entry if present, no error if
absent.  Keys are unique, so filtering the key out is the dict behaviour. -/
def pop (s : Store) (n : String) : Store :=
  s.filter (fun kv => kv.1 != n)

end Store

/-!
The JSON codec.  `save_profiles` writes `json.dump(profiles, f, indent=2)`;
`load_profiles` reads the file back with `json.load`.  Both are modelled at
the character level: the printer below produces the exact text CPython's
`json.dump` (default `ensure_ascii=True`) emits for a dict of record dicts,
and the parser below is a model of CPython's strict `json.load`.  Numeric
literals are kept verbatim in the AST (Python converts them to `int`/`float`;
no profile document contains numbers, so the literal is enough to settle the
claims).  The one modelling restriction: `\uXXXX` escapes denoting lone
surrogates are rejected, where Python would build a lone-surrogate `str`
that has no counterpart in Lean's `Char`.
-/

/-- JSON whitespace, exactly the characters `json.decoder.WHITESPACE` skips. -/
def jsonWs (c : Char) : Bool :=
  c == ' ' || c == '\t' || c == '\n' || c == '\r'

/-- Drop leading JSON whitespace. -/
def skipWs (l : List Char) : List Char := l.dropWhile jsonWs

/-- Lowercase hex digit, as CPython prints in `\uXXXX` escapes. -/
def hexDigitChar (n : Nat) : Char :=
  if n < 10 then Char.ofNat (48 + n) else Char.ofNat (87 + n)

/-- Four lowercase hex digits of `n < 0x10000`, most significant first. -/
def hex4 (n : Nat) : List Char :=
  [hexDigitChar (n / 4096 % 16), hexDigitChar (n / 256 % 16),
   hexDigitChar (n / 16 % 16), hexDigitChar (n % 16)]

/-- How `json.dump` (with `ensure_ascii=True`) renders one character inside a
string literal: the two-character shortcuts, printable ASCII verbatim, and
`\uXXXX` (a surrogate pair above the BMP) for everything else. -/
def escChar (c : Char) : List Char :=
  if c = '"' then ['\\', '"']
  else if c = '\\' then ['\\', '\\']
  else if c = '\x08' then ['\\', 'b']
  else if c = '\x0c' then ['\\', 'f']
  else if c = '\n' then ['\\', 'n']
  else if c = '\r' then ['\\', 'r']
  else if c = '\t' then ['\\', 't']
  else if 0x20 ≤ c.toNat ∧ c.toNat ≤ 0x7e then [c]
  else if c.toNat < 0x10000 then '\\' :: 'u' :: hex4 c.toNat
  else ('\\' :: 'u' :: hex4 (0xD800 + (c.toNat - 0x10000) / 0x400)) ++
       ('\\' :: 'u' :: hex4 (0xDC00 + (c.toNat - 0x10000) % 0x400))

/-- The characters of a JSON string literal for `s`, quotes excluded. -/
def encStrBody (s : String) : List Char := (s.toList.map escChar).flatten

/-- The full JSON string literal for `s`. -/
def encStr (s : String) : List Char := '"' :: (encStrBody s ++ ['"'])

/-- The shape of one printed string-valued member inside an object: the key
literal, a colon-space, the value literal, then the continuation `t`. -/
def memberText (k v : String) (t : List Char) : List Char :=
  '"' :: (encStrBody k ++ ('"' :: (':' :: ' ' :: (encStr v ++ t))))

/-- Concatenate pieces with a separator between consecutive pieces. -/
def joinSep (sep : List Char) : List (List Char) → List Char
  | [] => []
  | [x] => x
  | x :: y :: xs => x ++ (sep ++ joinSep sep (y :: xs))

/-- One `"key": "value"` line of an inner record object, at `indent=2`
nesting depth two (four spaces). -/
def dumpField (k v : String) : List Char :=
  [' ', ' ', ' ', ' '] ++ (encStr k ++ (':' :: ' ' :: encStr v))

/-- The text `json.dump(..., indent=2)` produces for one record dict, as it
appears nested one level deep in the profiles file. -/
def dumpRecord (r : ProfileRecord) : List Char :=
  '\x7b' :: '\n' ::
    (joinSep [',', '\n'] (r.toDict.map (fun kv => dumpField kv.1 kv.2)) ++
      ('\n' :: ' ' :: ' ' :: ['\x7d']))

/-- The shape of one printed record-valued member inside the top object. -/
def memberRecText (name : String) (r : ProfileRecord) (t : List Char) : List Char :=
  '"' :: (encStrBody name ++ ('"' :: (':' :: ' ' :: (dumpRecord r ++ t))))

/-- One `"name": { ... }` top-level member of the profiles file. -/
def dumpStoreMember (kv : String × ProfileRecord) : List Char :=
  ' ' :: ' ' :: (encStr kv.1 ++ (':' :: ' ' :: dumpRecord kv.2))

/-- The whole profiles file: `json.dump(profiles, f, indent=2)`. -/
def dumpStoreChars (s : Store) : List Char :=
  if s = [] then ['\x7b', '\x7d']
  else '\x7b' :: '\n' ::
    (joinSep [',', '\n'] (s.map dumpStoreMember) ++ ['\n', '\x7d'])

/-- Model of `save_profiles(profiles)`: the exact file text written. -/
def save_profiles (s : Store) : String := String.mk (dumpStoreChars s)

/-- A parsed JSON document: the Python value `json.load` returns.  Numeric
literals are kept verbatim. -/
inductive Json where
  | null : Json
  | bool (b : Bool) : Json
  | num (lit : String) : Json
  | str (s : String) : Json
  | arr (elems : List Json) : Json
  | obj (members : List (String × Json)) : Json

/-- Prepend a decoded character to a string-body parse result. -/
def consStr (c : Char) (r : Option (List Char × List Char)) :
    Option (List Char × List Char) :=
  r.map (fun p => (c :: p.1, p.2))

/-- The value of one hex digit (both cases accepted, as in CPython). -/
def hexVal (c : Char) : Option Nat :=
  if '0' ≤ c ∧ c ≤ '9' then some (c.toNat - 48)
  else if 'a' ≤ c ∧ c ≤ 'f' then some (c.toNat - 87)
  else if 'A' ≤ c ∧ c ≤ 'F' then some (c.toNat - 55)
  else none

/-- The value of a four-hex-digit escape payload. -/
def hex4Val (a b c d : Char) : Option Nat := do
  let x ← hexVal a
  let y ← hexVal b
  let z ← hexVal c
  let w ← hexVal d
  pure (4096 * x + 256 * y + 16 * z + w)

/-- Decode the payload of a `\uXXXX` escape (the characters after `\u`):
the scalar, combining a high surrogate with a following `\uXXXX` low
surrogate into one supplementary-plane scalar.  A lone surrogate is
rejected (see the section note). -/
def decodeUEsc : List Char → Option (Char × List Char)
  | a :: b :: c2 :: d :: rest3 =>
    match hex4Val a b c2 d with
    | none => none
    | some n =>
      if n < 0xD800 ∨ 0xDFFF < n then some (Char.ofNat n, rest3)
      else if n ≤ 0xDBFF then
        match rest3 with
        | e1 :: e2 :: a2 :: b2 :: c3 :: d2 :: rest4 =>
          if e1 = '\\' ∧ e2 = 'u' then
            match hex4Val a2 b2 c3 d2 with
            | none => none
            | some m =>
              if 0xDC00 ≤ m ∧ m ≤ 0xDFFF then
                some (Char.ofNat (0x10000 + 0x400 * (n - 0xD800) + (m - 0xDC00)), rest4)
              else none
          else none
        | _ => none
      else none
  | _ => none

/-- Decode one escape sequence (the characters after a backslash): the
decoded character and the remaining input. -/
def decodeEsc : List Char → Option (Char × List Char)
  | [] => none
  | e :: rest2 =>
    if e = '"' then some ('"', rest2)
    else if e = '\\' then some ('\\', rest2)
    else if e = '/' then some ('/', rest2)
    else if e = 'b' then some ('\x08', rest2)
    else if e = 'f' then some ('\x0c', rest2)
    else if e = 'n' then some ('\n', rest2)
    else if e = 'r' then some ('\r', rest2)
    else if e = 't' then some ('\t', rest2)
    else if e = 'u' then decodeUEsc rest2
    else none

/-- An escape payload is strictly shorter after decoding one scalar. -/
def decodeUEsc_length : ∀ (l : List Char) (ch : Char) (r : List Char),
    decodeUEsc l = some (ch, r) → r.length < l.length := by
  intro l ch r h
  unfold decodeUEsc at h
  repeat' split at h
  all_goals
    first
      | exact Option.noConfusion h
      | (injection h with hp
         injection hp with h1 h2
         subst h2
         simp only [List.length_cons]
         omega)

/-- An escape sequence is strictly shorter after decoding one scalar. -/
def decodeEsc_length : ∀ (l : List Char) (ch : Char) (r : List Char),
    decodeEsc l = some (ch, r) → r.length < l.length := by
  intro l ch r h
  unfold decodeEsc at h
  repeat' split at h
  all_goals
    first
      | exact Option.noConfusion h
      | (injection h with hp
         injection hp with h1 h2
         subst h2
         simp only [List.length_cons]
         omega)
      | (have hlen := decodeUEsc_length _ _ _ h
         simp only [List.length_cons]
         omega)

/-- Parse the body of a JSON string literal (the opening quote already
consumed): decoded characters plus the input after the closing quote.
Strict mode: unescaped control characters are an error. -/
def parseStrBody : List Char → Option (List Char × List Char)
  | [] => none
  | c :: rest =>
    if c = '"' then some ([], rest)
    else if c = '\\' then
      match hd : decodeEsc rest with
      | none => none
      | some (ch, rest2) => consStr ch (parseStrBody rest2)
    else if c.toNat < 0x20 then none
    else consStr c (parseStrBody rest)
termination_by l => l.length
decreasing_by
  · have := decodeEsc_length _ _ _ hd
    simp only [List.length_cons]
    omega
  · simp

/-- Parse a JSON numeric literal (the regex `json.scanner` matches, plus the
leading-position cases `NaN`/`Infinity` handled by the caller), returning the
literal verbatim. -/
def parseNumber (l : List Char) : Option (String × List Char) :=
  let signed := match l with
    | '-' :: r => (['-'], r)
    | _ => (([] : List Char), l)
  match signed.2 with
  | [] => none
  | c :: _ =>
    if c.isDigit then
      let intPart :=
        if c = '0' then (['0'], signed.2.tail)
        else (signed.2.takeWhile Char.isDigit, signed.2.dropWhile Char.isDigit)
      let frac :=
        match intPart.2 with
        | '.' :: r =>
          if r.takeWhile Char.isDigit = [] then (([] : List Char), intPart.2)
          else ('.' :: r.takeWhile Char.isDigit, r.dropWhile Char.isDigit)
        | _ => (([] : List Char), intPart.2)
      let ex :=
        match frac.2 with
        | e :: r =>
          if e = 'e' ∨ e = 'E' then
            let signed2 := match r with
              | '+' :: rr => (['+'], rr)
              | '-' :: rr => (['-'], rr)
              | _ => (([] : List Char), r)
            if signed2.2.takeWhile Char.isDigit = [] then (([] : List Char), frac.2)
            else (e :: (signed2.1 ++ signed2.2.takeWhile Char.isDigit),
                  signed2.2.dropWhile Char.isDigit)
          else (([] : List Char), frac.2)
        | [] => (([] : List Char), frac.2)
      some (String.mk (signed.1 ++ intPart.1 ++ frac.1 ++ ex.1), ex.2)
    else none

/-- Parse a leaf value (string, keyword or number) at an already
whitespace-skipped position. -/
def parseAtom : List Char → Option (Json × List Char)
  | '"' :: rest => (parseStrBody rest).map (fun p => (Json.str (String.mk p.1), p.2))
  | 't' :: 'r' :: 'u' :: 'e' :: rest => some (Json.bool true, rest)
  | 'f' :: 'a' :: 'l' :: 's' :: 'e' :: rest => some (Json.bool false, rest)
  | 'n' :: 'u' :: 'l' :: 'l' :: rest => some (Json.null, rest)
  | 'N' :: 'a' :: 'N' :: rest => some (Json.num "NaN", rest)
  | 'I' :: 'n' :: 'f' :: 'i' :: 'n' :: 'i' :: 't' :: 'y' :: rest =>
    some (Json.num "Infinity", rest)
  | '-' :: 'I' :: 'n' :: 'f' :: 'i' :: 'n' :: 'i' :: 't' :: 'y' :: rest =>
    some (Json.num "-Infinity", rest)
  | other => (parseNumber other).map (fun p => (Json.num p.1, p.2))

mutual

/-- Parse one JSON value, with explicit recursion fuel.  `parseJson` supplies
`input.length + 1` fuel; every recursive descent first consumes at least one
character, so the fuel never runs out on the top-level entry. -/
def parseValue : Nat → List Char → Option (Json × List Char)
  | 0, _ => none
  | fuel + 1, input =>
    match skipWs input with
    | '\x7b' :: rest =>
      match skipWs rest with
      | '\x7d' :: rest2 => some (Json.obj [], rest2)
      | _ => (parseMembers fuel (skipWs rest)).map (fun p => (Json.obj p.1, p.2))
    | '[' :: rest =>
      match skipWs rest with
      | ']' :: rest2 => some (Json.arr [], rest2)
      | _ => (parseElems fuel (skipWs rest)).map (fun p => (Json.arr p.1, p.2))
    | other => parseAtom other

/-- Parse the members of an object, positioned at an (already
whitespace-skipped) key. -/
def parseMembers : Nat → List Char → Option (List (String × Json) × List Char)
  | 0, _ => none
  | fuel + 1, input =>
    match input with
    | '"' :: rest =>
      match parseStrBody rest with
      | none => none
      | some (k, rest1) =>
        match skipWs rest1 with
        | ':' :: rest2 =>
          match parseValue fuel rest2 with
          | none => none
          | some (v, rest3) =>
            match skipWs rest3 with
            | ',' :: rest4 =>
              (parseMembers fuel (skipWs rest4)).map
                (fun p => ((String.mk k, v) :: p.1, p.2))
            | '\x7d' :: rest4 => some ([(String.mk k, v)], rest4)
            | _ => none
        | _ => none
    | _ => none

/-- Parse the elements of a non-empty array. -/
def parseElems : Nat → List Char → Option (List Json × List Char)
  | 0, _ => none
  | fuel + 1, input =>
    match parseValue fuel input with
    | none => none
    | some (v, rest) =>
      match skipWs rest with
      | ',' :: rest2 => (parseElems fuel (skipWs rest2)).map (fun p => (v :: p.1, p.2))
      | ']' :: rest2 => some ([v], rest2)
      | _ => none

end

/-- Model of `json.load`: parse one document and insist nothing but
whitespace follows (Python's `Extra data` check). -/
def parseJson (s : String) : Option Json :=
  match parseValue (s.length + 1) s.toList with
  | some (j, rest) => if skipWs rest = [] then some j else none
  | none => none

/-- Model of `load_profiles()`.  The argument is the durable storage content
(`none` when `ip_profiles.json` does not exist).  An unparseable file is the
propagated `json.JSONDecodeError`. -/
def load_profiles (file : Option String) : Except String Json :=
  match file with
  | none => Except.ok (Json.obj [])
  | some text =>
    match parseJson text with
    | some j => Except.ok j
    | none => Except.error "JSONDecodeError"

/-- The Python value a record dict is, as a JSON document. -/
def recordJson (r : ProfileRecord) : Json :=
  Json.obj [("ip", Json.str r.ip), ("mask", Json.str r.mask), ("gw", Json.str r.gw),
    ("dns1", Json.str r.dns1), ("dns2", Json.str r.dns2)]

/-- The Python value a whole store is, as a JSON document; member order is
the store's insertion order. -/
def jsonOfStore (s : Store) : Json :=
  Json.obj (s.map (fun kv => (kv.1, recordJson kv.2)))

/-- The interaction shell's state: the in-memory dict `self.profiles` plus
the durable storage content. -/
structure AppState where
  profiles : Store
  disk : Option String
deriving DecidableEq

namespace App

/-- Model of `App._add`.  `nameInput` is what `askstring` returned (`none`
for cancel); `dlgResult` is the editor outcome.  Every successful mutation
saves the whole store at once. -/
def add (st : AppState) (nameInput : Option String) (dlgResult : Option ProfileRecord) :
    AppState :=
  match nameInput with
  | none => st
  | some n =>
    if n = "" then st
    else
      match dlgResult with
      | none => st
      | some r =>
        let ps := Store.setItem st.profiles n r
        { profiles := ps, disk := some (save_profiles ps) }

/-- Model of `App._edit`.  `selection` is the listbox selection; reading the
defaults `self.profiles[name]` raises `KeyError` (result `none`) if the name
is somehow absent. -/
def edit (st : AppState) (selection : Option String) (dlgResult : Option ProfileRecord) :
    Option AppState :=
  match selection with
  | none => some st
  | some n =>
    match Store.get? st.profiles n with
    | none => none
    | some _ =>
      match dlgResult with
      | none => some st
      | some r =>
        let ps := Store.setItem st.profiles n r
        some { profiles := ps, disk := some (save_profiles ps) }

/-- Model of `App._delete`: on confirmation, pop the name and save the whole
store. -/
def delete (st : AppState) (selection : Option String) (confirmed : Bool) : AppState :=
  match selection with
  | none => st
  | some n =>
    if confirmed then
      let ps := Store.pop st.profiles n
      { profiles := ps, disk := some (save_profiles ps) }
    else st

end App

/-- A runner whose every command reports success. -/
def okRun : Runner := fun _ => ⟨0, "", ""⟩

/-- A runner whose every command fails with a non-zero exit, as when the tool
rejects the arguments or is unreachable. -/
def failRun : Runner := fun _ => ⟨1, "", "The system cannot find the file specified."⟩

/-- A concrete record (the §8 scenario) used to instantiate general theorems. -/
def officeRec : ProfileRecord :=
  ⟨"192.168.1.50", "255.255.255.0", "192.168.1.1", "8.8.8.8", ""⟩

/-- A concrete record with a secondary DNS server set. -/
def labRec : ProfileRecord :=
  ⟨"10.0.0.2", "255.255.255.0", "10.0.0.1", "1.1.1.1", "9.9.9.9"⟩

/-!
Theorems.  First the engine: the complete characterisation of both
transitions' traces, from which the claims about counts, order and
best-effort sequencing follow.
-/

/-- For a full record and a non-empty adapter, `apply_profile` returns
normally and its trace is exactly `applyCmds`, each command paired with
whatever the runner answered. -/
theorem apply_profile_toDict (run : Runner) (adapter : String) (r : ProfileRecord)
    (h : adapter ≠ "") :
    apply_profile run adapter (some r.toDict) =
      some ((applyCmds adapter r).map (fun c => (c, run c))) := by
  by_cases hd : r.dns2 = "" <;>
    simp [apply_profile, ProfileRecord.toDict, dictGet, run_netsh, applyCmds,
      setAddressCmd, setDnsPrimaryCmd, addDnsSecondaryCmd, h, hd]

/-- `set_dhcp`'s trace is exactly `dhcpCmds`, for every adapter string. -/
theorem set_dhcp_eq (run : Runner) (adapter : String) :
    set_dhcp run adapter = (dhcpCmds adapter).map (fun c => (c, run c)) := rfl

/-- Claim C1, counterexample.  As stated the claim is false: `revert` on the
empty adapter identifier does not emit zero commands — `set_dhcp` has no
guard, so it still issues its two netsh commands (with an empty `name=`
argument). -/
theorem revert_empty_adapter_counterexample :
    (set_dhcp okRun "").map Prod.fst = [dhcpAddressCmd "", dhcpDnsCmd ""] ∧
    ¬ ((set_dhcp okRun "").map Prod.fst).length = 0 := by
  refine ⟨rfl, ?_⟩
  simp [set_dhcp, run_netsh]

/-- Claim C1, amended: for every profile argument, `apply` with an empty
adapter identifier emits zero external commands and returns the no-op
outcome (an empty trace, no error); `revert` with an empty adapter
identifier is not guarded and still emits its two commands. -/
theorem apply_empty_adapter_skips (run : Runner) (p : Option Dict) :
    apply_profile run "" p = some [] ∧
    (set_dhcp run "").map Prod.fst = [dhcpAddressCmd "", dhcpDnsCmd ""] :=
  ⟨by simp [apply_profile], rfl⟩

/-- Claim C2: on a non-empty adapter, `apply` emits exactly the three ordered
commands set-address, set-dns-primary, add-dns-secondary when the record's
secondary DNS is non-empty, and exactly the first two when it is empty;
`revert` always emits exactly set-address-to-dhcp then set-dns-to-dhcp. -/
theorem apply_revert_command_sequences (run : Runner) (adapter : String)
    (r : ProfileRecord) (h : adapter ≠ "") :
    (apply_profile run adapter (some r.toDict)).map (List.map Prod.fst) =
      some (if r.dns2 ≠ "" then
          [setAddressCmd adapter r.ip r.mask r.gw, setDnsPrimaryCmd adapter r.dns1,
            addDnsSecondaryCmd adapter r.dns2]
        else
          [setAddressCmd adapter r.ip r.mask r.gw, setDnsPrimaryCmd adapter r.dns1]) ∧
    (set_dhcp run adapter).map Prod.fst = [dhcpAddressCmd adapter, dhcpDnsCmd adapter] := by
  refine ⟨?_, rfl⟩
  rw [apply_profile_toDict run adapter r h]
  by_cases hd : r.dns2 = "" <;> simp [applyCmds, hd]

/-- Witness for C2 at the §8 scenario: `Office` has no secondary DNS, so
exactly the two ordered commands are emitted. -/
theorem apply_revert_command_sequences_witness :
    (apply_profile okRun "Ethernet0" (some officeRec.toDict)).map (List.map Prod.fst) =
      some [setAddressCmd "Ethernet0" "192.168.1.50" "255.255.255.0" "192.168.1.1",
        setDnsPrimaryCmd "Ethernet0" "8.8.8.8"] ∧
    (set_dhcp okRun "Ethernet0").map Prod.fst =
      [dhcpAddressCmd "Ethernet0", dhcpDnsCmd "Ethernet0"] := by
  have h := apply_revert_command_sequences okRun "Ethernet0" officeRec (by decide)
  exact ⟨h.1.trans rfl, h.2⟩

/-- Claim C4: the engine never aborts the sequence early and never surfaces a
per-command failure.  The trace's commands are the complete fixed list
whatever the runner answers (first two conjuncts, in particular for an
all-failing runner), the return value is a normal `some` carrying no
per-command status, and the issued commands are independent of the runner's
answers (last two conjuncts). -/
theorem best_effort_sequencing (runA runB : Runner) (adapter : String)
    (r : ProfileRecord) (h : adapter ≠ "") :
    apply_profile runA adapter (some r.toDict) =
      some ((applyCmds adapter r).map (fun c => (c, runA c))) ∧
    set_dhcp runA adapter = (dhcpCmds adapter).map (fun c => (c, runA c)) ∧
    (apply_profile runA adapter (some r.toDict)).map (List.map Prod.fst) =
      (apply_profile runB adapter (some r.toDict)).map (List.map Prod.fst) ∧
    (set_dhcp runA adapter).map Prod.fst = (set_dhcp runB adapter).map Prod.fst := by
  refine ⟨apply_profile_toDict runA adapter r h, rfl, ?_, rfl⟩
  rw [apply_profile_toDict runA adapter r h, apply_profile_toDict runB adapter r h]
  simp

/-- Witness for C4: with a runner that fails every command, all three `lab`
commands are still issued in order and the call still returns normally. -/
theorem best_effort_sequencing_witness :
    apply_profile failRun "Ethernet0" (some labRec.toDict) =
      some ((applyCmds "Ethernet0" labRec).map (fun c => (c, failRun c))) ∧
    set_dhcp failRun "Ethernet0" =
      (dhcpCmds "Ethernet0").map (fun c => (c, failRun c)) ∧
    (apply_profile failRun "Ethernet0" (some labRec.toDict)).map (List.map Prod.fst) =
      (apply_profile okRun "Ethernet0" (some labRec.toDict)).map (List.map Prod.fst) ∧
    (set_dhcp failRun "Ethernet0").map Prod.fst = (set_dhcp okRun "Ethernet0").map Prod.fst :=
  best_effort_sequencing failRun okRun "Ethernet0" labRec (by decide)

/-- Claim C10: the `if not adapter or not p` guard also covers an empty or
absent (`None`) profile record: zero commands are issued, the call returns
normally, and no field of the record is ever read, so no missing-field
(`KeyError`) failure can occur. -/
theorem apply_empty_record_guard (run : Runner) (adapter : String) :
    apply_profile run adapter (some []) = some [] ∧
    apply_profile run adapter none = some [] := by
  constructor <;> simp [apply_profile]

/-- Claim C3, counterexample.  Creating a profile passes no defaults to the
editor, so the untouched mask entry starts as the empty string — not
`255.255.255.0` — and pressing OK with it untouched is rejected by
validation, so no record with the claimed mask is ever persisted. -/
theorem mask_default_counterexample :
    ProfileDialog.body_init [] "mask" = "" ∧
    ProfileDialog.body_init [] "mask" ≠ "255.255.255.0" ∧
    ProfileDialog.result (ProfileDialog.initialEntries []) true = none := by
  refine ⟨rfl, by decide, by decide⟩

/-- Claim C3, amended: the editor prefills every entry with
`defaults.get(key, '')` — so a mask left untouched during creation is empty,
there is no `255.255.255.0` default anywhere — and a form whose mask strips
to empty is never accepted, hence no record is persisted from it. -/
theorem mask_untouched_never_persisted (e : DialogEntries) (ok : Bool)
    (h : pyStrip e.mask = "") :
    ProfileDialog.result e ok = none ∧
    ProfileDialog.initialEntries [] = ⟨"", "", "", "", ""⟩ := by
  refine ⟨?_, rfl⟩
  unfold ProfileDialog.result ProfileDialog.validate
  simp [h]

/-- Witness for the amended C3: the untouched creation form itself. -/
theorem mask_untouched_never_persisted_witness :
    ProfileDialog.result (ProfileDialog.initialEntries []) true = none ∧
    ProfileDialog.initialEntries [] = ⟨"", "", "", "", ""⟩ :=
  mask_untouched_never_persisted (ProfileDialog.initialEntries []) true (by decide)

/-- Reading a key back after the dict assignment finds the new record,
whether the assignment replaced in place or appended. -/
theorem get?_setItem (s : Store) (n : String) (r : ProfileRecord) :
    Store.get? (Store.setItem s n r) n = some r := by
  induction s with
  | nil => simp [Store.setItem, Store.get?]
  | cons kv tl ih =>
    by_cases hk : kv.1 = n
    · simp [Store.setItem, Store.get?, List.find?_cons, hk]
    · have hkb : (kv.1 == n) = false := by simpa using hk
      have hstep : Store.get? (Store.setItem (kv :: tl) n r) n
          = Store.get? (Store.setItem tl n r) n := by
        by_cases hmem : (tl.find? (fun kv => kv.1 == n)).isSome = true
        · simp [Store.setItem, Store.get?, List.find?_cons, hkb, hk, hmem]
        · simp [Store.setItem, Store.get?, List.find?_cons, hkb, hk, hmem]
      rw [hstep]
      exact ih

/-- Claim C8: after `create_or_update` (the dict assignment both `_add` and
`_edit` perform) on a non-empty name, `get` returns exactly the new record,
whether or not the name was previously present; the same holds through the
`_add` code path. -/
theorem create_or_update_then_get (st : AppState) (s : Store) (n : String)
    (r : ProfileRecord) (h : n ≠ "") :
    Store.get? (Store.setItem s n r) n = some r ∧
    Store.get? (App.add st (some n) (some r)).profiles n = some r := by
  refine ⟨get?_setItem s n r, ?_⟩
  simp only [App.add, if_neg h]
  exact get?_setItem st.profiles n r

/-- Witness for C8: overwriting `Office` in a one-entry store. -/
theorem create_or_update_then_get_witness :
    Store.get? (Store.setItem [("Office", officeRec)] "Office" labRec) "Office" =
      some labRec ∧
    Store.get? (App.add ⟨[("Office", officeRec)], none⟩ (some "Office")
        (some labRec)).profiles "Office" = some labRec :=
  create_or_update_then_get ⟨[("Office", officeRec)], none⟩ [("Office", officeRec)]
    "Office" labRec (by decide)

/-- Claim C9: `delete` (`dict.pop(name, None)`) is idempotent — deleting an
absent name leaves the store unchanged and raises nothing, and for every
store deleting twice equals deleting once. -/
theorem delete_idempotent (s : Store) (n : String) (h : Store.get? s n = none) :
    Store.pop s n = s ∧
    ∀ t : Store, Store.pop (Store.pop t n) n = Store.pop t n := by
  constructor
  · unfold Store.pop
    apply List.filter_eq_self.mpr
    intro kv hkv
    have hnone : s.find? (fun kv => kv.1 == n) = none := by
      simpa [Store.get?] using h
    have := List.find?_eq_none.mp hnone kv hkv
    simpa [bne] using this
  · intro t
    simp [Store.pop, List.filter_filter]

/-- Witness for C9: deleting the absent `Home` from the `Office` store. -/
theorem delete_idempotent_witness :
    Store.pop [("Office", officeRec)] "Home" = [("Office", officeRec)] ∧
    ∀ t : Store, Store.pop (Store.pop t "Home") "Home" = Store.pop t "Home" :=
  delete_idempotent [("Office", officeRec)] "Home" (by decide)

/-- Claim C7: every mutating operation either leaves the state untouched
(cancelled prompt, failed lookup, unconfirmed delete) or ends with the
durable storage holding the full serialisation of the new in-memory mapping
— the persist happens inside the operation itself, never deferred. -/
theorem mutations_persist_in_full (st : AppState) (nameInput selection : Option String)
    (dlgA dlgE : Option ProfileRecord) (confirmed : Bool) :
    (App.add st nameInput dlgA = st ∨
      (App.add st nameInput dlgA).disk =
        some (save_profiles (App.add st nameInput dlgA).profiles)) ∧
    ((App.edit st selection dlgE).getD st = st ∨
      ((App.edit st selection dlgE).getD st).disk =
        some (save_profiles ((App.edit st selection dlgE).getD st).profiles)) ∧
    (App.delete st selection confirmed = st ∨
      (App.delete st selection confirmed).disk =
        some (save_profiles (App.delete st selection confirmed).profiles)) := by
  refine ⟨?_, ?_, ?_⟩
  · cases nameInput with
    | none => exact Or.inl rfl
    | some n =>
      by_cases hn : n = ""
      · exact Or.inl (by simp [App.add, hn])
      · cases dlgA with
        | none => exact Or.inl (by simp [App.add, hn])
        | some r => exact Or.inr (by simp [App.add, hn])
  · cases selection with
    | none => exact Or.inl rfl
    | some n =>
      cases hg : Store.get? st.profiles n with
      | none => exact Or.inl (by simp [App.edit, hg])
      | some r0 =>
        cases dlgE with
        | none => exact Or.inl (by simp [App.edit, hg])
        | some r => exact Or.inr (by simp [App.edit, hg])
  · cases selection with
    | none => exact Or.inl rfl
    | some n =>
      cases confirmed with
      | false => exact Or.inl (by simp [App.delete])
      | true => exact Or.inr (by simp [App.delete])

/-!
Correctness of the JSON codec on the documents `save_profiles` writes: the
parser recovers exactly the saved store.  The development follows the shape
of the printer: string bodies first, then single members, then the member
list, then the whole document.
-/

theorem skipWs_nil : skipWs [] = [] := rfl

theorem skipWs_cons (c : Char) (l : List Char) :
    skipWs (c :: l) = if jsonWs c then skipWs l else c :: l := by
  simp [skipWs, List.dropWhile_cons]

theorem skipWs_idem (l : List Char) : skipWs (skipWs l) = skipWs l := by
  induction l with
  | nil => rfl
  | cons c tl ih =>
    by_cases h : jsonWs c
    · simp [skipWs_cons, h, ih]
    · simp [skipWs_cons, h]

theorem skipWs_ws_append (w l : List Char) (hw : ∀ c ∈ w, jsonWs c = true) :
    skipWs (w ++ l) = skipWs l := by
  induction w with
  | nil => rfl
  | cons c tl ih =>
    have hc := hw c (by simp)
    simp only [List.cons_append, skipWs_cons, hc, if_true]
    exact ih (fun d hd => hw d (by simp [hd]))

theorem hexVal_hexDigitChar (k : Nat) (h : k < 16) : hexVal (hexDigitChar k) = some k := by
  interval_cases k <;> decide

theorem hex4Val_hex4 (n : Nat) (h : n < 65536) :
    hex4Val (hexDigitChar (n / 4096 % 16)) (hexDigitChar (n / 256 % 16))
      (hexDigitChar (n / 16 % 16)) (hexDigitChar (n % 16)) = some n := by
  have h1 := hexVal_hexDigitChar (n / 4096 % 16) (Nat.mod_lt _ (by norm_num))
  have h2 := hexVal_hexDigitChar (n / 256 % 16) (Nat.mod_lt _ (by norm_num))
  have h3 := hexVal_hexDigitChar (n / 16 % 16) (Nat.mod_lt _ (by norm_num))
  have h4 := hexVal_hexDigitChar (n % 16) (Nat.mod_lt _ (by norm_num))
  simp only [hex4Val, h1, h2, h3, h4, Option.bind_eq_bind, Option.some_bind,
    Option.pure_def, Option.some.injEq]
  omega

/-- A character's code point is a Unicode scalar value: below the surrogate
range or above it and below `0x110000`. -/
theorem char_toNat_valid (c : Char) :
    c.toNat < 0xd800 ∨ (0xdfff < c.toNat ∧ c.toNat < 0x110000) := by
  rcases c.valid with h | ⟨h1, h2⟩
  · exact Or.inl (UInt32.toNat_lt_of_lt (by decide) h)
  · exact Or.inr ⟨UInt32.lt_toNat_of_lt (by decide) h1,
      UInt32.toNat_lt_of_lt (by decide) h2⟩

theorem mk_toList (s : String) : String.mk s.toList = s := rfl

/-- The closing quote ends the string body. -/
theorem parseStrBody_quote (l : List Char) : parseStrBody ('"' :: l) = some ([], l) := by
  rw [parseStrBody]
  simp

/-- An ordinary character inside a string literal is consumed verbatim. -/
theorem parseStrBody_plain (c : Char) (h1 : c ≠ '"') (h2 : c ≠ '\\')
    (h3 : ¬ c.toNat < 0x20) (l : List Char) :
    parseStrBody (c :: l) = consStr c (parseStrBody l) := by
  rw [parseStrBody]
  simp [h1, h2, h3]

/-- A backslash hands over to the escape decoder. -/
theorem parseStrBody_esc (rest rest2 : List Char) (ch : Char)
    (h : decodeEsc rest = some (ch, rest2)) :
    parseStrBody ('\\' :: rest) = consStr ch (parseStrBody rest2) := by
  rw [parseStrBody]
  rw [if_neg (by decide : ¬ ('\\' : Char) = '"'), if_pos (rfl : ('\\' : Char) = '\\')]
  split
  · rename_i heq
    rw [h] at heq
    exact Option.noConfusion heq
  · rename_i ch' rest2' heq
    rw [h] at heq
    injection heq with hp
    injection hp with h1 h2
    subst h1
    subst h2
    rfl

/-- A `\uXXXX` escape outside the surrogate range decodes to its scalar. -/
theorem decodeEsc_u_some (a b c2 d : Char) (n : Nat) (hn : hex4Val a b c2 d = some n)
    (hval : n < 0xD800 ∨ 0xDFFF < n) (rest : List Char) :
    decodeEsc ('u' :: a :: b :: c2 :: d :: rest) = some (Char.ofNat n, rest) := by
  show decodeUEsc (a :: b :: c2 :: d :: rest) = some (Char.ofNat n, rest)
  simp only [decodeUEsc, hn]
  simp [hval]

/-- A high-surrogate `\uXXXX` followed by a low-surrogate `\uXXXX` decodes to
the combined supplementary-plane scalar. -/
theorem decodeEsc_u_pair (a b c2 d a2 b2 c3 d2 : Char) (n m : Nat)
    (hn : hex4Val a b c2 d = some n) (hm : hex4Val a2 b2 c3 d2 = some m)
    (hnr : 0xD800 ≤ n ∧ n ≤ 0xDBFF) (hmr : 0xDC00 ≤ m ∧ m ≤ 0xDFFF)
    (rest : List Char) :
    decodeEsc ('u' :: a :: b :: c2 :: d :: '\\' :: 'u' :: a2 :: b2 :: c3 :: d2 :: rest) =
      some (Char.ofNat (0x10000 + 0x400 * (n - 0xD800) + (m - 0xDC00)), rest) := by
  have hnot : ¬ (n < 0xD800 ∨ 0xDFFF < n) := by omega
  show decodeUEsc (a :: b :: c2 :: d :: '\\' :: 'u' :: a2 :: b2 :: c3 :: d2 :: rest) =
    some (Char.ofNat (0x10000 + 0x400 * (n - 0xD800) + (m - 0xDC00)), rest)
  simp only [decodeUEsc, hn, hm]
  simp [hnot, hnr.2, hmr]

/-- One printed character followed by well-formed remainder parses back to
that character consed onto the remainder's parse. -/
theorem parseStrBody_escChar (c : Char) (l s r : List Char)
    (h : parseStrBody l = some (s, r)) :
    parseStrBody (escChar c ++ l) = some (c :: s, r) := by
  by_cases h1 : c = '"'
  · subst h1
    show parseStrBody ('\\' :: '"' :: l) = some ('"' :: s, r)
    rw [parseStrBody_esc ('"' :: l) l '"' rfl, h]
    rfl
  by_cases h2 : c = '\\'
  · subst h2
    show parseStrBody ('\\' :: '\\' :: l) = some ('\\' :: s, r)
    rw [parseStrBody_esc ('\\' :: l) l '\\' rfl, h]
    rfl
  by_cases h3 : c = '\x08'
  · subst h3
    show parseStrBody ('\\' :: 'b' :: l) = some ('\x08' :: s, r)
    rw [parseStrBody_esc ('b' :: l) l '\x08' rfl, h]
    rfl
  by_cases h4 : c = '\x0c'
  · subst h4
    show parseStrBody ('\\' :: 'f' :: l) = some ('\x0c' :: s, r)
    rw [parseStrBody_esc ('f' :: l) l '\x0c' rfl, h]
    rfl
  by_cases h5 : c = '\n'
  · subst h5
    show parseStrBody ('\\' :: 'n' :: l) = some ('\n' :: s, r)
    rw [parseStrBody_esc ('n' :: l) l '\n' rfl, h]
    rfl
  by_cases h6 : c = '\r'
  · subst h6
    show parseStrBody ('\\' :: 'r' :: l) = some ('\r' :: s, r)
    rw [parseStrBody_esc ('r' :: l) l '\r' rfl, h]
    rfl
  by_cases h7 : c = '\t'
  · subst h7
    show parseStrBody ('\\' :: 't' :: l) = some ('\t' :: s, r)
    rw [parseStrBody_esc ('t' :: l) l '\t' rfl, h]
    rfl
  by_cases h8 : 0x20 ≤ c.toNat ∧ c.toNat ≤ 0x7e
  · have he : escChar c = [c] := by
      unfold escChar
      rw [if_neg h1, if_neg h2, if_neg h3, if_neg h4, if_neg h5, if_neg h6, if_neg h7,
        if_pos h8]
    rw [he, List.singleton_append, parseStrBody_plain c h1 h2 (by omega), h]
    rfl
  by_cases h9 : c.toNat < 0x10000
  · have hval := char_toNat_valid c
    have he : escChar c = '\\' :: 'u' :: hex4 c.toNat := by
      unfold escChar
      rw [if_neg h1, if_neg h2, if_neg h3, if_neg h4, if_neg h5, if_neg h6, if_neg h7,
        if_neg h8, if_pos h9]
    rw [he,
      show hex4 c.toNat = [hexDigitChar (c.toNat / 4096 % 16),
        hexDigitChar (c.toNat / 256 % 16), hexDigitChar (c.toNat / 16 % 16),
        hexDigitChar (c.toNat % 16)] from rfl]
    simp only [List.cons_append, List.nil_append]
    rw [parseStrBody_esc _ l (Char.ofNat c.toNat)
      (decodeEsc_u_some _ _ _ _ c.toNat (hex4Val_hex4 c.toNat h9) (by omega) l), h,
      Char.ofNat_toNat]
    rfl
  · have hval := char_toNat_valid c
    have hlt : c.toNat < 0x110000 := by omega
    have he : escChar c =
        ('\\' :: 'u' :: hex4 (0xD800 + (c.toNat - 0x10000) / 0x400)) ++
          ('\\' :: 'u' :: hex4 (0xDC00 + (c.toNat - 0x10000) % 0x400)) := by
      unfold escChar
      rw [if_neg h1, if_neg h2, if_neg h3, if_neg h4, if_neg h5, if_neg h6, if_neg h7,
        if_neg h8, if_neg h9]
    rw [he,
      show hex4 (0xD800 + (c.toNat - 0x10000) / 0x400) =
        [hexDigitChar ((0xD800 + (c.toNat - 0x10000) / 0x400) / 4096 % 16),
         hexDigitChar ((0xD800 + (c.toNat - 0x10000) / 0x400) / 256 % 16),
         hexDigitChar ((0xD800 + (c.toNat - 0x10000) / 0x400) / 16 % 16),
         hexDigitChar ((0xD800 + (c.toNat - 0x10000) / 0x400) % 16)] from rfl,
      show hex4 (0xDC00 + (c.toNat - 0x10000) % 0x400) =
        [hexDigitChar ((0xDC00 + (c.toNat - 0x10000) % 0x400) / 4096 % 16),
         hexDigitChar ((0xDC00 + (c.toNat - 0x10000) % 0x400) / 256 % 16),
         hexDigitChar ((0xDC00 + (c.toNat - 0x10000) % 0x400) / 16 % 16),
         hexDigitChar ((0xDC00 + (c.toNat - 0x10000) % 0x400) % 16)] from rfl]
    simp only [List.cons_append, List.nil_append, List.append_assoc]
    rw [parseStrBody_esc _ l _
      (decodeEsc_u_pair _ _ _ _ _ _ _ _
        (0xD800 + (c.toNat - 0x10000) / 0x400) (0xDC00 + (c.toNat - 0x10000) % 0x400)
        (hex4Val_hex4 _ (by omega)) (hex4Val_hex4 _ (by omega))
        (by constructor <;> omega) (by constructor <;> omega) l), h]
    have harith : 0x10000 + 0x400 * ((0xD800 + (c.toNat - 0x10000) / 0x400) - 0xD800) +
        ((0xDC00 + (c.toNat - 0x10000) % 0x400) - 0xDC00) = c.toNat := by omega
    rw [harith, Char.ofNat_toNat]
    rfl

/-- A whole printed string body followed by the closing quote parses back to
exactly the printed characters. -/
theorem parseStrBody_enc (cs : List Char) (rest : List Char) :
    parseStrBody ((cs.map escChar).flatten ++ ('"' :: rest)) = some (cs, rest) := by
  induction cs with
  | nil => simp [parseStrBody_quote]
  | cons c tl ih =>
    simp only [List.map_cons, List.flatten_cons, List.append_assoc]
    exact parseStrBody_escChar c _ tl rest ih

theorem parseStrBody_encStrBody (s : String) (rest : List Char) :
    parseStrBody (encStrBody s ++ ('"' :: rest)) = some (s.toList, rest) :=
  parseStrBody_enc s.toList rest

/-- `parseValue` only looks at its input through `skipWs`. -/
theorem parseValue_skipWs (fuel : Nat) (l : List Char) :
    parseValue (fuel + 1) (skipWs l) = parseValue (fuel + 1) l := by
  conv_lhs => rw [parseValue]
  conv_rhs => rw [parseValue]
  rw [skipWs_idem]

/-- Leading whitespace before a value is ignored. -/
theorem parseValue_ws_cons (fuel : Nat) (c : Char) (hc : jsonWs c = true) (l : List Char) :
    parseValue (fuel + 1) (c :: l) = parseValue (fuel + 1) l := by
  rw [← parseValue_skipWs fuel (c :: l), skipWs_cons, if_pos hc, parseValue_skipWs]

/-- A single leading space before a value is ignored. -/
theorem parseValue_space (fuel : Nat) (l : List Char) :
    parseValue (fuel + 1) (' ' :: l) = parseValue (fuel + 1) l :=
  parseValue_ws_cons fuel ' ' rfl l

/-- A printed string literal parses as a JSON string value. -/
theorem parseValue_encStr (fuel : Nat) (s : String) (rest : List Char) :
    parseValue (fuel + 1) (encStr s ++ rest) = some (Json.str s, rest) := by
  have hshape : encStr s ++ rest = '"' :: (encStrBody s ++ ('"' :: rest)) := by
    simp [encStr]
  rw [hshape]
  show (parseStrBody (encStrBody s ++ ('"' :: rest))).map
      (fun p => (Json.str (String.mk p.1), p.2)) = some (Json.str s, rest)
  rw [parseStrBody_encStrBody]
  simp [mk_toList]

/-- One printed `"key": "value"` member followed by a comma, then further
members that parse to `ms`. -/
theorem parseMembers_cons_str (fuel : Nat) (k v : String) (tail : List Char)
    (ms : List (String × Json)) (rest : List Char)
    (htail : parseMembers (fuel + 1) (skipWs tail) = some (ms, rest)) :
    parseMembers (fuel + 2) (memberText k v (',' :: tail)) =
      some ((k, Json.str v) :: ms, rest) := by
  rw [memberText, parseMembers]
  simp only [parseStrBody_encStrBody, mk_toList]
  simp [skipWs_cons, jsonWs, parseValue_space, parseValue_encStr, htail]

/-- The final printed `"key": "value"` member, followed by whitespace and the
closing brace. -/
theorem parseMembers_last_str (fuel : Nat) (k v : String) (w rest : List Char)
    (hw : ∀ c ∈ w, jsonWs c = true) :
    parseMembers (fuel + 2) (memberText k v (w ++ ('\x7d' :: rest))) =
      some ([(k, Json.str v)], rest) := by
  rw [memberText, parseMembers]
  simp only [parseStrBody_encStrBody, mk_toList]
  simp [skipWs_cons, jsonWs, parseValue_space, parseValue_encStr,
    skipWs_ws_append w ('\x7d' :: rest) hw]

/-- An opening brace followed by a non-empty member list parses as the
object those members form. -/
theorem parseValue_obj_cons (fuel : Nat) (l l0 : List Char) (c0 : Char)
    (hsk : skipWs l = c0 :: l0) (hne : c0 ≠ '\x7d')
    (ms : List (String × Json)) (rest : List Char)
    (hm : parseMembers fuel (c0 :: l0) = some (ms, rest)) :
    parseValue (fuel + 1) ('\x7b' :: l) = some (Json.obj ms, rest) := by
  rw [parseValue]
  rw [show skipWs ('\x7b' :: l) = '\x7b' :: l from by simp [skipWs_cons, jsonWs]]
  simp only [hsk]
  split
  · rename_i rest2 heq
    injection heq with hc _
    exact absurd hc hne
  · simp [hm]

/-- The object stepper specialised to a member list starting with a printed
string-valued member. -/
theorem parseValue_obj_members (fuel : Nat) (l : List Char) (k v : String) (t : List Char)
    (hsk : skipWs l = memberText k v t)
    (ms : List (String × Json)) (rest : List Char)
    (hm : parseMembers fuel (memberText k v t) = some (ms, rest)) :
    parseValue (fuel + 1) ('\x7b' :: l) = some (Json.obj ms, rest) := by
  refine parseValue_obj_cons fuel l
    (encStrBody k ++ ('"' :: (':' :: ' ' :: (encStr v ++ t)))) '"' ?_ (by decide)
    ms rest ?_
  · rw [hsk]; rfl
  · exact hm

/-- The printed text of a whole record parses back to the record's JSON
document, with any continuation untouched. -/
theorem parseValue_dumpRecord (fuel : Nat) (r : ProfileRecord) (rest : List Char) :
    parseValue (fuel + 11) (dumpRecord r ++ rest) = some (recordJson r, rest) := by
  have h5 : parseMembers (fuel + 6)
      (memberText "dns2" r.dns2 ('\n' :: ' ' :: ' ' :: '\x7d' :: rest)) =
      some ([("dns2", Json.str r.dns2)], rest) :=
    parseMembers_last_str (fuel + 4) "dns2" r.dns2 ['\n', ' ', ' '] rest (by decide)
  have h4 : parseMembers (fuel + 7)
      (memberText "dns1" r.dns1 (',' :: '\n' :: ' ' :: ' ' :: ' ' :: ' ' ::
        memberText "dns2" r.dns2 ('\n' :: ' ' :: ' ' :: '\x7d' :: rest))) =
      some ([("dns1", Json.str r.dns1), ("dns2", Json.str r.dns2)], rest) := by
    refine parseMembers_cons_str (fuel + 5) "dns1" r.dns1 _ _ rest ?_
    rw [show skipWs ('\n' :: ' ' :: ' ' :: ' ' :: ' ' ::
        memberText "dns2" r.dns2 ('\n' :: ' ' :: ' ' :: '\x7d' :: rest)) =
        memberText "dns2" r.dns2 ('\n' :: ' ' :: ' ' :: '\x7d' :: rest) from by
      simp [skipWs_cons, jsonWs, memberText]]
    exact h5
  have h3 : parseMembers (fuel + 8)
      (memberText "gw" r.gw (',' :: '\n' :: ' ' :: ' ' :: ' ' :: ' ' ::
        memberText "dns1" r.dns1 (',' :: '\n' :: ' ' :: ' ' :: ' ' :: ' ' ::
          memberText "dns2" r.dns2 ('\n' :: ' ' :: ' ' :: '\x7d' :: rest)))) =
      some ([("gw", Json.str r.gw), ("dns1", Json.str r.dns1),
        ("dns2", Json.str r.dns2)], rest) := by
    refine parseMembers_cons_str (fuel + 6) "gw" r.gw _ _ rest ?_
    rw [show skipWs ('\n' :: ' ' :: ' ' :: ' ' :: ' ' ::
        memberText "dns1" r.dns1 (',' :: '\n' :: ' ' :: ' ' :: ' ' :: ' ' ::
          memberText "dns2" r.dns2 ('\n' :: ' ' :: ' ' :: '\x7d' :: rest))) =
        memberText "dns1" r.dns1 (',' :: '\n' :: ' ' :: ' ' :: ' ' :: ' ' ::
          memberText "dns2" r.dns2 ('\n' :: ' ' :: ' ' :: '\x7d' :: rest)) from by
      simp [skipWs_cons, jsonWs, memberText]]
    exact h4
  have h2 : parseMembers (fuel + 9)
      (memberText "mask" r.mask (',' :: '\n' :: ' ' :: ' ' :: ' ' :: ' ' ::
        memberText "gw" r.gw (',' :: '\n' :: ' ' :: ' ' :: ' ' :: ' ' ::
          memberText "dns1" r.dns1 (',' :: '\n' :: ' ' :: ' ' :: ' ' :: ' ' ::
            memberText "dns2" r.dns2 ('\n' :: ' ' :: ' ' :: '\x7d' :: rest))))) =
      some ([("mask", Json.str r.mask), ("gw", Json.str r.gw),
        ("dns1", Json.str r.dns1), ("dns2", Json.str r.dns2)], rest) := by
    refine parseMembers_cons_str (fuel + 7) "mask" r.mask _ _ rest ?_
    rw [show skipWs ('\n' :: ' ' :: ' ' :: ' ' :: ' ' ::
        memberText "gw" r.gw (',' :: '\n' :: ' ' :: ' ' :: ' ' :: ' ' ::
          memberText "dns1" r.dns1 (',' :: '\n' :: ' ' :: ' ' :: ' ' :: ' ' ::
            memberText "dns2" r.dns2 ('\n' :: ' ' :: ' ' :: '\x7d' :: rest)))) =
        memberText "gw" r.gw (',' :: '\n' :: ' ' :: ' ' :: ' ' :: ' ' ::
          memberText "dns1" r.dns1 (',' :: '\n' :: ' ' :: ' ' :: ' ' :: ' ' ::
            memberText "dns2" r.dns2 ('\n' :: ' ' :: ' ' :: '\x7d' :: rest))) from by
      simp [skipWs_cons, jsonWs, memberText]]
    exact h3
  have h1 : parseMembers (fuel + 10)
      (memberText "ip" r.ip (',' :: '\n' :: ' ' :: ' ' :: ' ' :: ' ' ::
        memberText "mask" r.mask (',' :: '\n' :: ' ' :: ' ' :: ' ' :: ' ' ::
          memberText "gw" r.gw (',' :: '\n' :: ' ' :: ' ' :: ' ' :: ' ' ::
            memberText "dns1" r.dns1 (',' :: '\n' :: ' ' :: ' ' :: ' ' :: ' ' ::
              memberText "dns2" r.dns2 ('\n' :: ' ' :: ' ' :: '\x7d' :: rest)))))) =
      some ([("ip", Json.str r.ip), ("mask", Json.str r.mask), ("gw", Json.str r.gw),
        ("dns1", Json.str r.dns1), ("dns2", Json.str r.dns2)], rest) := by
    refine parseMembers_cons_str (fuel + 8) "ip" r.ip _ _ rest ?_
    rw [show skipWs ('\n' :: ' ' :: ' ' :: ' ' :: ' ' ::
        memberText "mask" r.mask (',' :: '\n' :: ' ' :: ' ' :: ' ' :: ' ' ::
          memberText "gw" r.gw (',' :: '\n' :: ' ' :: ' ' :: ' ' :: ' ' ::
            memberText "dns1" r.dns1 (',' :: '\n' :: ' ' :: ' ' :: ' ' :: ' ' ::
              memberText "dns2" r.dns2 ('\n' :: ' ' :: ' ' :: '\x7d' :: rest))))) =
        memberText "mask" r.mask (',' :: '\n' :: ' ' :: ' ' :: ' ' :: ' ' ::
          memberText "gw" r.gw (',' :: '\n' :: ' ' :: ' ' :: ' ' :: ' ' ::
            memberText "dns1" r.dns1 (',' :: '\n' :: ' ' :: ' ' :: ' ' :: ' ' ::
              memberText "dns2" r.dns2 ('\n' :: ' ' :: ' ' :: '\x7d' :: rest)))) from by
      simp [skipWs_cons, jsonWs, memberText]]
    exact h2
  have hshape : dumpRecord r ++ rest =
      '\x7b' :: '\n' :: ' ' :: ' ' :: ' ' :: ' ' ::
        memberText "ip" r.ip (',' :: '\n' :: ' ' :: ' ' :: ' ' :: ' ' ::
          memberText "mask" r.mask (',' :: '\n' :: ' ' :: ' ' :: ' ' :: ' ' ::
            memberText "gw" r.gw (',' :: '\n' :: ' ' :: ' ' :: ' ' :: ' ' ::
              memberText "dns1" r.dns1 (',' :: '\n' :: ' ' :: ' ' :: ' ' :: ' ' ::
                memberText "dns2" r.dns2 ('\n' :: ' ' :: ' ' :: '\x7d' :: rest))))) := by
    simp [dumpRecord, ProfileRecord.toDict, dumpField, joinSep, encStr, memberText]
  rw [show fuel + 11 = (fuel + 10) + 1 from by omega, hshape]
  refine parseValue_obj_members (fuel + 10) _ "ip" r.ip _ ?_ _ rest h1
  simp [skipWs_cons, jsonWs, memberText]

/-- One printed `"name": { record }` member followed by a comma and further
members that parse to `ms`. -/
theorem parseMembers_cons_rec (fuel : Nat) (name : String) (r : ProfileRecord)
    (tail : List Char) (ms : List (String × Json)) (rest : List Char)
    (htail : parseMembers (fuel + 11) (skipWs tail) = some (ms, rest)) :
    parseMembers (fuel + 12) (memberRecText name r (',' :: tail)) =
      some ((name, recordJson r) :: ms, rest) := by
  have hval : parseValue (fuel + 11) (' ' :: (dumpRecord r ++ (',' :: tail))) =
      some (recordJson r, ',' :: tail) := by
    rw [show fuel + 11 = (fuel + 10) + 1 from by omega,
      parseValue_ws_cons (fuel + 10) ' ' rfl,
      show (fuel + 10) + 1 = fuel + 11 from by omega]
    exact parseValue_dumpRecord fuel r (',' :: tail)
  rw [memberRecText, parseMembers]
  simp only [parseStrBody_encStrBody, mk_toList]
  simp [skipWs_cons, jsonWs, hval, htail]

/-- The final printed `"name": { record }` member, followed by whitespace and
the closing brace. -/
theorem parseMembers_last_rec (fuel : Nat) (name : String) (r : ProfileRecord)
    (w rest : List Char) (hw : ∀ c ∈ w, jsonWs c = true) :
    parseMembers (fuel + 12) (memberRecText name r (w ++ ('\x7d' :: rest))) =
      some ([(name, recordJson r)], rest) := by
  have hval : parseValue (fuel + 11) (' ' :: (dumpRecord r ++ (w ++ ('\x7d' :: rest)))) =
      some (recordJson r, w ++ ('\x7d' :: rest)) := by
    rw [show fuel + 11 = (fuel + 10) + 1 from by omega,
      parseValue_ws_cons (fuel + 10) ' ' rfl,
      show (fuel + 10) + 1 = fuel + 11 from by omega]
    exact parseValue_dumpRecord fuel r (w ++ ('\x7d' :: rest))
  rw [memberRecText, parseMembers]
  simp only [parseStrBody_encStrBody, mk_toList]
  simp [skipWs_cons, jsonWs, hval, skipWs_ws_append w ('\x7d' :: rest) hw]

/-- The printed member list of a non-empty store parses back to the store's
members, in order. -/
theorem parseMembers_store (s : Store) (hs : s ≠ []) : ∀ (fuel : Nat) (rest : List Char),
    parseMembers (fuel + s.length + 11)
      (skipWs (joinSep [',', '\n'] (s.map dumpStoreMember) ++ ('\n' :: '\x7d' :: rest))) =
      some (s.map (fun kv => (kv.1, recordJson kv.2)), rest) := by
  induction s with
  | nil => exact absurd rfl hs
  | cons a tl ih =>
    intro fuel rest
    cases tl with
    | nil =>
      rw [show skipWs (joinSep [',', '\n']
            (([a] : Store).map dumpStoreMember) ++ ('\n' :: '\x7d' :: rest)) =
          memberRecText a.1 a.2 ('\n' :: '\x7d' :: rest) from by
        simp [joinSep, dumpStoreMember, encStr, memberRecText, skipWs_cons, jsonWs]]
      rw [show fuel + ([a] : Store).length + 11 = fuel + 12 from by
        simp only [List.length_cons, List.length_nil]
        try omega]
      exact parseMembers_last_rec fuel a.1 a.2 ['\n'] rest (by decide)
    | cons b tl2 =>
      rw [show skipWs (joinSep [',', '\n']
            ((a :: b :: tl2).map dumpStoreMember) ++ ('\n' :: '\x7d' :: rest)) =
          memberRecText a.1 a.2 (',' :: ('\n' ::
            (joinSep [',', '\n'] ((b :: tl2).map dumpStoreMember) ++
              ('\n' :: '\x7d' :: rest)))) from by
        simp [joinSep, dumpStoreMember, encStr, memberRecText, skipWs_cons, jsonWs]]
      rw [show fuel + (a :: b :: tl2).length + 11 = (fuel + (b :: tl2).length) + 12 from by
        simp only [List.length_cons]; omega]
      refine parseMembers_cons_rec (fuel + (b :: tl2).length) a.1 a.2 _ _ rest ?_
      rw [show skipWs ('\n' :: (joinSep [',', '\n'] ((b :: tl2).map dumpStoreMember) ++
            ('\n' :: '\x7d' :: rest))) =
          skipWs (joinSep [',', '\n'] ((b :: tl2).map dumpStoreMember) ++
            ('\n' :: '\x7d' :: rest)) from by
        rw [skipWs_cons]; simp [jsonWs]]
      exact ih (by simp) fuel rest

/-- The object stepper specialised to a member list starting with a printed
record-valued member. -/
theorem parseValue_obj_recMembers (fuel : Nat) (l : List Char) (name : String)
    (r : ProfileRecord) (t : List Char)
    (hsk : skipWs l = memberRecText name r t)
    (ms : List (String × Json)) (rest : List Char)
    (hm : parseMembers fuel (memberRecText name r t) = some (ms, rest)) :
    parseValue (fuel + 1) ('\x7b' :: l) = some (Json.obj ms, rest) := by
  refine parseValue_obj_cons fuel l
    (encStrBody name ++ ('"' :: (':' :: ' ' :: (dumpRecord r ++ t)))) '"' ?_ (by decide)
    ms rest ?_
  · rw [hsk]; rfl
  · exact hm

/-- The whole printed profiles file parses back to the store's document. -/
theorem parseValue_dumpStore (fuel : Nat) (s : Store) (rest : List Char) :
    parseValue (fuel + s.length + 12) (dumpStoreChars s ++ rest) =
      some (jsonOfStore s, rest) := by
  cases s with
  | nil =>
    rw [show dumpStoreChars [] ++ rest = '\x7b' :: '\x7d' :: rest from rfl]
    rw [show fuel + ([] : Store).length + 12 = (fuel + 11) + 1 from by
      simp only [List.length_nil]
      try omega]
    rw [parseValue]
    simp [skipWs_cons, jsonWs, jsonOfStore]
  | cons a tl =>
    have hshape : dumpStoreChars (a :: tl) ++ rest =
        '\x7b' :: ('\n' :: (joinSep [',', '\n'] ((a :: tl).map dumpStoreMember) ++
          ('\n' :: '\x7d' :: rest))) := by
      simp [dumpStoreChars]
    rw [hshape,
      show fuel + (a :: tl).length + 12 = (fuel + (a :: tl).length + 11) + 1 from by omega]
    cases tl with
    | nil =>
      refine parseValue_obj_recMembers _ _ a.1 a.2 ('\n' :: '\x7d' :: rest) ?_ _ rest ?_
      · simp [joinSep, dumpStoreMember, encStr, memberRecText, skipWs_cons, jsonWs]
      · rw [show fuel + (a :: ([] : Store)).length + 11 = fuel + 12 from by
          simp only [List.length_cons, List.length_nil]
          try omega]
        exact parseMembers_last_rec fuel a.1 a.2 ['\n'] rest (by decide)
    | cons b tl2 =>
      refine parseValue_obj_recMembers _ _ a.1 a.2
        (',' :: ('\n' :: (joinSep [',', '\n'] ((b :: tl2).map dumpStoreMember) ++
          ('\n' :: '\x7d' :: rest)))) ?_ _ rest ?_
      · simp [joinSep, dumpStoreMember, encStr, memberRecText, skipWs_cons, jsonWs]
      · rw [show fuel + (a :: b :: tl2).length + 11 = (fuel + (b :: tl2).length) + 12 from by
          simp only [List.length_cons]; omega]
        refine parseMembers_cons_rec (fuel + (b :: tl2).length) a.1 a.2 _ _ rest ?_
        rw [show skipWs ('\n' :: (joinSep [',', '\n'] ((b :: tl2).map dumpStoreMember) ++
              ('\n' :: '\x7d' :: rest))) =
            skipWs (joinSep [',', '\n'] ((b :: tl2).map dumpStoreMember) ++
              ('\n' :: '\x7d' :: rest)) from by
          rw [skipWs_cons]; simp [jsonWs]]
        exact parseMembers_store (b :: tl2) (by simp) fuel rest

theorem encStr_length_ge (s : String) : 2 ≤ (encStr s).length := by
  simp [encStr]

theorem dumpRecord_length_ge (r : ProfileRecord) : 6 ≤ (dumpRecord r).length := by
  simp [dumpRecord]

theorem dumpStoreMember_length_ge (kv : String × ProfileRecord) :
    12 ≤ (dumpStoreMember kv).length := by
  have h1 := encStr_length_ge kv.1
  have h2 := dumpRecord_length_ge kv.2
  simp only [dumpStoreMember, List.length_cons, List.length_append]
  omega

theorem joinSep_store_length (s : Store) :
    12 * s.length ≤ (joinSep [',', '\n'] (s.map dumpStoreMember)).length := by
  induction s with
  | nil => simp [joinSep]
  | cons a tl ih =>
    cases tl with
    | nil =>
      have := dumpStoreMember_length_ge a
      simp only [List.map_cons, List.map_nil, joinSep, List.length_cons, List.length_nil]
      omega
    | cons b tl2 =>
      have := dumpStoreMember_length_ge a
      simp only [List.map_cons, joinSep, List.length_append, List.length_cons] at ih ⊢
      omega

theorem dumpStoreChars_length (s : Store) (hs : s ≠ []) :
    s.length + 12 ≤ (dumpStoreChars s).length + 1 := by
  have hj := joinSep_store_length s
  have hpos := List.length_pos.mpr hs
  rw [dumpStoreChars, if_neg hs]
  simp only [List.length_cons, List.length_append]
  omega

/-- The persistence round trip at the heart of claim C5: parsing the saved
file recovers exactly the saved store's document. -/
theorem parseJson_save_profiles (s : Store) :
    parseJson (save_profiles s) = some (jsonOfStore s) := by
  by_cases hs : s = []
  · subst hs
    rfl
  · unfold parseJson save_profiles
    rw [show (String.mk (dumpStoreChars s)).toList = dumpStoreChars s from rfl,
      show (String.mk (dumpStoreChars s)).length = (dumpStoreChars s).length from rfl]
    obtain ⟨fuel, hf⟩ : ∃ fuel, (dumpStoreChars s).length + 1 = fuel + s.length + 12 :=
      ⟨(dumpStoreChars s).length + 1 - s.length - 12, by
        have := dumpStoreChars_length s hs; omega⟩
    rw [hf, show dumpStoreChars s = dumpStoreChars s ++ [] from (List.append_nil _).symm,
      parseValue_dumpStore fuel s []]
    simp [skipWs_nil]

/-- Two records with the same JSON document are equal. -/
theorem recordJson_inj (r t : ProfileRecord) (h : recordJson r = recordJson t) : r = t := by
  simp only [recordJson, Json.obj.injEq, List.cons.injEq, Prod.mk.injEq,
    Json.str.injEq, and_true, true_and] at h
  obtain ⟨h1, h2, h3, h4, h5⟩ := h
  cases r
  cases t
  simp_all

/-- Two stores with the same JSON document are equal — in particular the
member order determines the insertion order. -/
theorem jsonOfStore_inj (s t : Store) (h : jsonOfStore s = jsonOfStore t) : s = t := by
  simp only [jsonOfStore, Json.obj.injEq] at h
  have hf : Function.Injective
      (fun kv : String × ProfileRecord => (kv.1, recordJson kv.2)) := by
    intro x y hxy
    simp only [Prod.mk.injEq] at hxy
    obtain ⟨h1, h2⟩ := hxy
    have h3 := recordJson_inj _ _ h2
    cases x
    cases y
    simp_all
  exact List.map_injective_iff.mpr hf h

/-- Claim C5: saving a store (a finite mapping, so with distinct names) and
loading the file back yields exactly the saved store: the parse returns the
store's own document, `load_profiles` returns it without error, and the
document determines the store, members in insertion order. -/
theorem save_load_round_trip (s : Store) (hnodup : (s.map Prod.fst).Nodup) :
    parseJson (save_profiles s) = some (jsonOfStore s) ∧
    load_profiles (some (save_profiles s)) = Except.ok (jsonOfStore s) ∧
    (∀ t : Store, jsonOfStore s = jsonOfStore t → s = t) := by
  refine ⟨parseJson_save_profiles s, ?_, fun t ht => jsonOfStore_inj s t ht⟩
  simp [load_profiles, parseJson_save_profiles s]

/-- Witness for C5 at the §8 scenario store. -/
theorem save_load_round_trip_witness :
    parseJson (save_profiles [("Office", officeRec)]) =
      some (jsonOfStore [("Office", officeRec)]) ∧
    load_profiles (some (save_profiles [("Office", officeRec)])) =
      Except.ok (jsonOfStore [("Office", officeRec)]) ∧
    (∀ t : Store, jsonOfStore [("Office", officeRec)] = jsonOfStore t →
      [("Office", officeRec)] = t) :=
  save_load_round_trip [("Office", officeRec)] (by decide)

/-- Claim C6: `load_profiles` returns the empty store when no storage file
exists; an unparseable file is a propagated decode error; and every
successful load is the complete parse of the whole file — never a partial
one. -/
theorem load_profiles_error_handling :
    load_profiles none = Except.ok (Json.obj []) ∧
    (∀ t : String, parseJson t = none →
      load_profiles (some t) = Except.error "JSONDecodeError") ∧
    (∀ (t : String) (j : Json), load_profiles (some t) = Except.ok j →
      parseJson t = some j) := by
  refine ⟨rfl, ?_, ?_⟩
  · intro t ht
    simp [load_profiles, ht]
  · intro t j hj
    unfold load_profiles at hj
    cases hp : parseJson t with
    | none => simp [hp] at hj
    | some j2 =>
      simp only [hp] at hj
      simp_all

/-- Witness for C6: a file whose content is not JSON is rejected. -/
theorem load_profiles_error_handling_witness :
    load_profiles (some "x") = Except.error "JSONDecodeError" :=
  load_profiles_error_handling.2.1 "x" rfl

end IpSwitcher
